import Mathlib

/-
Verification of the priority scoring and dependency-analysis engine of the
task-analyzer repository (src/tasks/scoring.py), against its natural-language
specification.

The Python module is shallowly embedded:
  * `date` objects become `PyDate` records (year/month/day as integers) with
    a days-from-civil conversion modelling `date` subtraction (`.days`) and
    `date.weekday()`;
  * floats become rationals (all score arithmetic in the source is plain
    +, *, /, min, max on small decimal constants);
  * dynamically typed task-field values become the inductive `PyVal`
    (used by `validate_task` and `parse_date`, which branch on runtime types);
  * task records used by the scoring pipeline become the typed record
    `STask` matching the data model of the spec (section 3);
  * Python's stable `list.sort(key=..., reverse=True)` is modelled by an
    insertion sort on the same descending key; a stable sort is extensionally
    determined by its key order and stability, so any stable model is exact;
  * `analyze_tasks` mutates its input (it writes a `_circular_warning` key
    into input tasks that lie on a detected cycle), so its model returns a
    pair: the post-call state of the input list, and the returned list.
-/

namespace TaskAnalyzer

/-! ## Calendar model: `datetime.date` -/

/-- A Python `datetime.date` value: year, month, day. -/
structure PyDate where
  year : Int
  month : Int
  day : Int
deriving DecidableEq, Repr

/-- Days since 1970-01-01 (proleptic Gregorian, Howard Hinnant's
`days_from_civil`); models Python `date` subtraction: `(a - b).days =
a.toDays - b.toDays`. -/
def PyDate.toDays (dt : PyDate) : Int :=
  let y := if dt.month ≤ 2 then dt.year - 1 else dt.year
  let era := Int.fdiv y 400
  let yoe := y - era * 400
  let doy := Int.fdiv (153 * (if dt.month > 2 then dt.month - 3 else dt.month + 9) + 2) 5 + dt.day - 1
  let doe := yoe * 365 + Int.fdiv yoe 4 - Int.fdiv yoe 100 + doy
  era * 146097 + doe - 719468

/-- Calendar-day difference `(due - today).days` in Python. -/
def dateDiff (a b : PyDate) : Int :=
  a.toDays - b.toDays

/-- Gregorian leap year (as `calendar.isleap` / `datetime`). -/
def isLeapYear (y : Int) : Bool :=
  y % 4 = 0 ∧ (y % 100 ≠ 0 ∨ y % 400 = 0)

/-- Number of days in a month, as enforced by the `datetime.date`
constructor. -/
def daysInMonth (y m : Int) : Int :=
  if m = 2 then (if isLeapYear y then 29 else 28)
  else if m = 4 ∨ m = 6 ∨ m = 9 ∨ m = 11 then 30
  else 31

/-! ## `datetime.strptime(s, "%Y-%m-%d")`

CPython's `_strptime` compiles the format to a regex: `%Y` matches exactly
four digits, `%m` matches `1[0-2]|0[1-9]|[1-9]` (one or two digits, value
1..12, two-digit alternatives tried first), `%d` matches
`3[01]|[12]\x5cd|0[1-9]|[1-9]` (value 1..31), the whole string must be
consumed, and the `date` constructor then checks `1 <= year <= 9999` and
`day <= days_in_month`. -/

/-- Decimal digit value of a character, if it is a digit. -/
def digitVal (c : Char) : Option Int :=
  if c.isDigit then some ((c.toNat : Int) - 48) else none

/-- Parse a month field: two digits with value 1..12 if possible, else one
digit 1..9 (mirroring the regex alternation order). Returns the value and
the remaining characters. -/
def parseMonthField : List Char → Option (Int × List Char)
  | c1 :: c2 :: rest =>
    match digitVal c1, digitVal c2 with
    | some d1, some d2 =>
      let v := d1 * 10 + d2
      if 1 ≤ v ∧ v ≤ 12 then some (v, rest)
      else if 1 ≤ d1 then some (d1, c2 :: rest) else none
    | some d1, none => if 1 ≤ d1 then some (d1, c2 :: rest) else none
    | none, _ => none
  | [c1] =>
    match digitVal c1 with
    | some d1 => if 1 ≤ d1 then some (d1, []) else none
    | none => none
  | [] => none

/-- Parse a day field: two digits with value 1..31 if possible, else one
digit 1..9. -/
def parseDayField : List Char → Option (Int × List Char)
  | c1 :: c2 :: rest =>
    match digitVal c1, digitVal c2 with
    | some d1, some d2 =>
      let v := d1 * 10 + d2
      if 1 ≤ v ∧ v ≤ 31 then some (v, rest)
      else if 1 ≤ d1 then some (d1, c2 :: rest) else none
    | some d1, none => if 1 ≤ d1 then some (d1, c2 :: rest) else none
    | none, _ => none
  | [c1] =>
    match digitVal c1 with
    | some d1 => if 1 ≤ d1 then some (d1, []) else none
    | none => none
  | [] => none

/-- Model of `datetime.strptime(s, "%Y-%m-%d").date()`: `none` when the
source would raise `ValueError`. -/
def strptimeYMD (s : String) : Option PyDate :=
  match s.toList with
  | y1 :: y2 :: y3 :: y4 :: '-' :: rest =>
    match digitVal y1, digitVal y2, digitVal y3, digitVal y4 with
    | some a, some b, some c, some d =>
      let year := a * 1000 + b * 100 + c * 10 + d
      match parseMonthField rest with
      | some (month, '-' :: rest2) =>
        match parseDayField rest2 with
        | some (day, []) =>
          if 1 ≤ year ∧ day ≤ daysInMonth year month then
            some ⟨year, month, day⟩
          else none
        | _ => none
      | _ => none
    | _, _, _, _ => none
  | _ => none

/-! ## Python runtime values (for the dynamically-typed functions) -/

/-- A Python value as it can appear in a caller-supplied task field.
`vlist` models any sequence passed for `dependencies`; element values are
never inspected by `validate_task`/`parse_date`, only emptiness matters
(for truthiness). -/
inductive PyVal where
  | vnone
  | vint (n : Int)
  | vfloat (q : Rat)
  | vbool (b : Bool)
  | vstr (s : String)
  | vlist (elems : List Int)
deriving DecidableEq, Repr

/-- Python truthiness (`bool(x)`). -/
def PyVal.truthy : PyVal → Bool
  | .vnone => false
  | .vint n => n ≠ 0
  | .vfloat q => q ≠ 0
  | .vbool b => b
  | .vstr s => s ≠ ""
  | .vlist l => l ≠ []

/-- `isinstance(x, str)`. -/
def PyVal.isStr : PyVal → Bool
  | .vstr _ => true
  | _ => false

/-- `isinstance(x, list)`. -/
def PyVal.isList : PyVal → Bool
  | .vlist _ => true
  | _ => false

/-- Truncation toward zero, as Python `int()` applied to a float. -/
def truncRat (q : Rat) : Int :=
  if 0 ≤ q then ⌊q⌋ else -⌊-q⌋

/-- Parse an optionally signed run of decimal digits (`int(s)` on a
stripped string). -/
def parseIntDigits : List Char → Option Int
  | [] => none
  | cs =>
    if cs.all Char.isDigit then
      some (cs.foldl (fun acc c => acc * 10 + ((c.toNat : Int) - 48)) 0)
    else none

/-- Model of `int(s)` for a string: strip whitespace, optional sign, a
nonempty digit run. (Underscore separators and non-ASCII digits are outside
the model.) -/
def pyIntOfString (s : String) : Option Int :=
  match (s.toList.dropWhile (· = ' ')).reverse.dropWhile (· = ' ') |>.reverse with
  | '+' :: rest => parseIntDigits rest
  | '-' :: rest => (parseIntDigits rest).map (fun n => -n)
  | cs => parseIntDigits cs

/-- Digits with an optional single decimal point, value as a rational. -/
def parseFloatDigits (cs : List Char) : Option Rat :=
  match cs.splitOn '.' with
  | [intPart] =>
    (parseIntDigits intPart).map (fun n => (n : Rat))
  | [intPart, fracPart] =>
    if intPart = [] ∧ fracPart = [] then none
    else if intPart.all Char.isDigit ∧ fracPart.all Char.isDigit then
      let ip := intPart.foldl (fun acc c => acc * 10 + ((c.toNat : Int) - 48)) 0
      let fp := fracPart.foldl (fun acc c => acc * 10 + ((c.toNat : Int) - 48)) 0
      some ((ip : Rat) + (fp : Rat) / ((10 : Rat) ^ fracPart.length))
    else none
  | _ => none

/-- Model of `float(s)` for a string: strip whitespace, optional sign,
finite decimal literal. (Exponent notation and `inf`/`nan` literals are
outside the model; no claim exercises them.) -/
def pyFloatOfString (s : String) : Option Rat :=
  match (s.toList.dropWhile (· = ' ')).reverse.dropWhile (· = ' ') |>.reverse with
  | '+' :: rest => parseFloatDigits rest
  | '-' :: rest => (parseFloatDigits rest).map (fun q => -q)
  | cs => parseFloatDigits cs

/-- `int(x)`: `none` models `ValueError`/`TypeError`. -/
def pyInt : PyVal → Option Int
  | .vint n => some n
  | .vfloat q => some (truncRat q)
  | .vbool b => some (if b then 1 else 0)
  | .vstr s => pyIntOfString s
  | .vnone => none
  | .vlist _ => none

/-- `float(x)`: `none` models `ValueError`/`TypeError`. -/
def pyFloat : PyVal → Option Rat
  | .vint n => some (n : Rat)
  | .vfloat q => some q
  | .vbool b => some (if b then 1 else 0)
  | .vstr s => pyFloatOfString s
  | .vnone => none
  | .vlist _ => none

/-! ## `validate_task` (src/tasks/scoring.py lines 16-62)

Task fields are caller-supplied Python values, so this model keeps them as
`PyVal`s (`none` = key absent). -/

/-- A raw task record as `validate_task` sees it: each field is the value
stored under that key, or `none` when the key is absent. Only the keys the
function inspects are modelled. -/
structure VTask where
  title : Option PyVal := none
  importance : Option PyVal := none
  estimated_hours : Option PyVal := none
  due_date : Option PyVal := none
  dependencies : Option PyVal := none
deriving DecidableEq, Repr

/-- Check 5 of `validate_task`: `dependencies`, if present, must be a list. -/
def validateDeps (t : VTask) : Bool × Option String :=
  match t.dependencies with
  | some v => if v.isList then (true, none) else (false, some "Dependencies must be a list")
  | none => (true, none)

/-- Check 4 of `validate_task`: a present, truthy, string-typed `due_date`
must parse as `%Y-%m-%d` (non-strings skip the `isinstance` guard and
pass). -/
def validateDue (t : VTask) : Bool × Option String :=
  match t.due_date with
  | some v =>
    if v.truthy then
      match v with
      | .vstr s =>
        if (strptimeYMD s).isNone then
          (false, some ("Invalid date format: " ++ s ++ ". Expected YYYY-MM-DD"))
        else validateDeps t
      | _ => validateDeps t
    else validateDeps t
  | none => validateDeps t

/-- Check 3 of `validate_task`: `estimated_hours`, if present, must coerce
via `float()` and be non-negative. -/
def validateHours (t : VTask) : Bool × Option String :=
  match t.estimated_hours with
  | some v =>
    match pyFloat v with
    | none => (false, some "Estimated hours must be a number")
    | some q => if q < 0 then (false, some "Estimated hours must be non-negative") else validateDue t
  | none => validateDue t

/-- `validate_task(task)`: the required `title` key, then checks 2-5 in
order, short-circuiting on the first failure (each early `return` in the
source is a branch here). -/
def validate_task (t : VTask) : Bool × Option String :=
  match t.title with
  | none => (false, some "Missing required field: title")
  | some _ =>
    match t.importance with
    | some v =>
      match pyInt v with
      | none => (false, some "Importance must be an integer")
      | some imp =>
        if ¬ (1 ≤ imp ∧ imp ≤ 10) then
          (false, some ("Importance must be between 1 and 10, got " ++ toString imp))
        else validateHours t
    | none => validateHours t

/-! ## `parse_date` (lines 65-74) -/

/-- `parse_date(date_str)`: falsy values and non-strings give `None`;
strings parse with `strptime("%Y-%m-%d")`, `ValueError` gives `None`. -/
def parse_date (v : Option PyVal) : Option PyDate :=
  match v with
  | none => none
  | some val =>
    if ¬ val.truthy then none
    else
      match val with
      | .vstr s => strptimeYMD s
      | _ => none

/-! ## `calculate_urgency_score` (lines 77-109) -/

/-- The branch cascade of `calculate_urgency_score` on the computed
`days_diff` (split out of the function only to let theorems speak about the
day-difference directly). -/
def urgencyOfDiff (days_diff : Int) : Rat :=
  if days_diff < 0 then min 200 (100 + ((|days_diff| : Int) : Rat) * 2.5)
  else if days_diff = 0 then 100
  else if days_diff ≤ 1 then 90
  else if days_diff ≤ 3 then 75
  else if days_diff ≤ 7 then 60
  else if days_diff ≤ 14 then 45
  else if days_diff ≤ 30 then 30
  else 15

/-- `calculate_urgency_score(due_date, today)`. -/
def calculate_urgency_score (due_date : Option PyDate) (today : PyDate) : Rat :=
  match due_date with
  | none => 30
  | some d => urgencyOfDiff (dateDiff d today)

/-! ## The typed task record used by the scoring pipeline

The spec's data model (section 3): `id` opaque identifier (modelled as an
integer), optional numeric `estimated_hours`/`importance`, `dependencies` a
list of identifiers. `due_date` stays a raw `PyVal` because the source
feeds it through `parse_date` untyped. `circularWarning` models presence of
the `_circular_warning` key that `analyze_tasks` writes into task dicts
(the source only ever stores `True` there, so presence is a boolean). -/
structure STask where
  id : Option Int := none
  title : Option String := none
  due_date : Option PyVal := none
  estimated_hours : Option Rat := none
  importance : Option Rat := none
  dependencies : List Int := []
  circularWarning : Bool := false
deriving DecidableEq, Repr

/-- Rendering of a numeric value inside an f-string. (Python float/int
formatting details are not claim-relevant; only which string is produced
for integral values matters to nothing in the claims.) -/
def pyStrOfRat (q : Rat) : String :=
  if q.den = 1 then toString q.num else toString q.num ++ "/" ++ toString q.den

/-- `tasks.index(task)`: index of the first equal element (Python `==` on
dicts is structural equality, as is equality of `STask`). -/
def listIndexOf (tasks : List STask) (t : STask) : Nat :=
  tasks.findIdx (fun x => decide (x = t))

/-- `task.get('id', tasks.index(task) if task in tasks else 0)` as used by
`score_task_high_impact` and `score_task_smart_balance`. -/
def effTaskId (task : STask) (tasks : List STask) : Int :=
  match task.id with
  | some i => i
  | none => if task ∈ tasks then (listIndexOf tasks task : Int) else 0

/-- `count_blocked_tasks(task_id, tasks)` (lines 209-216): the loop
incrementing a counter for each task whose `dependencies` contain the id. -/
def count_blocked_tasks (task_id : Int) (tasks : List STask) : Nat :=
  tasks.countP (fun t => decide (task_id ∈ t.dependencies))

/-- The typed restriction of `validate_task` used by `score_task`
(checks 3-4; in the typed record `dependencies` is always a list, so
check 5 always passes). -/
def validateDueS (t : STask) : Bool × Option String :=
  match t.due_date with
  | some v =>
    if v.truthy then
      match v with
      | .vstr s =>
        if (strptimeYMD s).isNone then
          (false, some ("Invalid date format: " ++ s ++ ". Expected YYYY-MM-DD"))
        else (true, none)
      | _ => (true, none)
    else (true, none)
  | none => (true, none)

/-- Typed restriction of `validate_task`, check 3 then on. -/
def validateHoursS (t : STask) : Bool × Option String :=
  match t.estimated_hours with
  | some q => if q < 0 then (false, some "Estimated hours must be non-negative") else validateDueS t
  | none => validateDueS t

/-- `validate_task` on the typed record: same checks in the same order; on
numeric `importance` the `int()` coercion cannot raise, it truncates. -/
def validate_task_s (t : STask) : Bool × Option String :=
  match t.title with
  | none => (false, some "Missing required field: title")
  | some _ =>
    match t.importance with
    | some q =>
      let imp := truncRat q
      if ¬ (1 ≤ imp ∧ imp ≤ 10) then
        (false, some ("Importance must be between 1 and 10, got " ++ toString imp))
      else validateHoursS t
    | none => validateHoursS t

/-! ## The four strategies (lines 219-399) -/

/-- `score_task_fastest_wins` (lines 219-251). -/
def score_task_fastest_wins (task : STask) (tasks : List STask) (today : PyDate) : Rat × String :=
  let estimated_hours := task.estimated_hours.getD 8
  let importance := task.importance.getD 5
  let due_date := parse_date task.due_date
  let effort_score := max 10 (100 / (estimated_hours + 1))
  let urgency_score := calculate_urgency_score due_date today * 0.3
  let importance_score := importance * 5
  let total_score := effort_score + urgency_score + importance_score
  let hoursStr := pyStrOfRat estimated_hours
  let explanation := s!"Fastest Wins: Low effort ({hoursStr}h) prioritized"
  let explanation :=
    match due_date with
    | some dd =>
      let days_diff := dateDiff dd today
      let od := |days_diff|
      if days_diff < 0 then explanation ++ s!", but overdue by {od} days"
      else if days_diff ≤ 3 then explanation ++ s!", due in {days_diff} days"
      else explanation
    | none => explanation
  (total_score, explanation)

/-- `score_task_high_impact` (lines 254-287). -/
def score_task_high_impact (task : STask) (tasks : List STask) (today : PyDate) : Rat × String :=
  let importance := task.importance.getD 5
  let due_date := parse_date task.due_date
  let task_id := effTaskId task tasks
  let importance_score := importance * 20
  let blocked_count := count_blocked_tasks task_id tasks
  let dependency_boost := (blocked_count : Rat) * 15
  let urgency_score := calculate_urgency_score due_date today * 0.4
  let total_score := importance_score + dependency_boost + urgency_score
  let impStr := pyStrOfRat importance
  let explanation := s!"High Impact: Importance {impStr}/10"
  let explanation :=
    if blocked_count > 0 then explanation ++ s!", blocks {blocked_count} other task(s)"
    else explanation
  let explanation :=
    match due_date with
    | some dd =>
      let days_diff := dateDiff dd today
      let od := |days_diff|
      if days_diff < 0 then explanation ++ s!", overdue by {od} days" else explanation
    | none => explanation
  (total_score, explanation)

/-- `score_task_deadline_driven` (lines 290-327). -/
def score_task_deadline_driven (task : STask) (tasks : List STask) (today : PyDate) : Rat × String :=
  let due_date := parse_date task.due_date
  let importance := task.importance.getD 5
  let urgency_score := calculate_urgency_score due_date today * 2
  let importance_score := importance * 3
  let estimated_hours := task.estimated_hours.getD 8
  let effort_bonus := max 0 (20 - estimated_hours)
  let total_score := urgency_score + importance_score + effort_bonus
  let explanation :=
    match due_date with
    | some dd =>
      let days_diff := dateDiff dd today
      let od := |days_diff|
      if days_diff < 0 then s!"Deadline Driven: OVERDUE by {od} days"
      else if days_diff = 0 then "Deadline Driven: Due TODAY"
      else if days_diff ≤ 3 then s!"Deadline Driven: Due in {days_diff} days (urgent)"
      else s!"Deadline Driven: Due in {days_diff} days"
    | none => "Deadline Driven: No due date (low priority)"
  (total_score, explanation)

/-- `score_task_smart_balance` (lines 330-399). -/
def score_task_smart_balance (task : STask) (tasks : List STask) (today : PyDate) : Rat × String :=
  let due_date := parse_date task.due_date
  let importance := task.importance.getD 5
  let estimated_hours := task.estimated_hours.getD 8
  let task_id := effTaskId task tasks
  let urgency_score := calculate_urgency_score due_date today
  let importance_score := importance * 10
  let effort_score := max 10 (50 / (estimated_hours + 1))
  let blocked_count := count_blocked_tasks task_id tasks
  let dependency_boost := (blocked_count : Rat) * 20
  let overdue : Bool := match due_date with
    | some dd => decide (dateDiff dd today < 0)
    | none => false
  let dueSoon : Bool := match due_date with
    | some dd => decide (dateDiff dd today ≤ 3)
    | none => false
  let urgency_weight : Rat := if overdue then 2.5 else if dueSoon then 1.5 else 1.0
  let importance_weight : Rat := if overdue then 1.0 else if dueSoon then 1.2 else 1.0
  let effort_weight : Rat := if overdue then 0.3 else if dueSoon then 0.5 else 0.8
  let total_score :=
    urgency_score * urgency_weight + importance_score * importance_weight +
      effort_score * effort_weight + dependency_boost
  let factors : List String :=
    (match due_date with
     | some dd =>
       let days_diff := dateDiff dd today
       let od := |days_diff|
       if days_diff < 0 then [s!"OVERDUE ({od} days)"]
       else if days_diff ≤ 3 then [s!"due in {days_diff} days"]
       else []
     | none => []) ++
    (if importance ≥ 8 then [s!"high importance ({pyStrOfRat importance}/10)"] else []) ++
    (if estimated_hours ≤ 2 then ["quick win"] else []) ++
    (if blocked_count > 0 then [s!"blocks {blocked_count} task(s)"] else [])
  let explanation :=
    if factors ≠ [] then "Smart Balance: " ++ String.intercalate ", " factors
    else "Smart Balance: Balanced priority"
  (total_score, explanation)

/-! ## `score_task` (lines 402-434) -/

/-- The keys of `strategy_map`. -/
def stratNames : List String :=
  ["fastest_wins", "high_impact", "deadline_driven", "smart_balance"]

/-- `score_task(task, tasks, strategy, today)`: validate first, then
dispatch; unknown strategy names fall back to `smart_balance`. (`today`
defaults to `date.today()` in the source; the model takes it as an
explicit argument.) -/
def score_task (task : STask) (tasks : List STask) (strategy : String) (today : PyDate) : Rat × String :=
  let v := validate_task_s task
  if v.1 = false then (0, "Invalid task: " ++ v.2.getD "")
  else
    let strategy := if strategy ∈ stratNames then strategy else "smart_balance"
    if strategy = "fastest_wins" then score_task_fastest_wins task tasks today
    else if strategy = "high_impact" then score_task_high_impact task tasks today
    else if strategy = "deadline_driven" then score_task_deadline_driven task tasks today
    else score_task_smart_balance task tasks today

/-! ## `detect_circular_dependencies` (lines 158-206)

The graph is a Python dict from effective task id to its list of resolvable
dependency ids; association lists with in-place update model dict insertion
order (existing keys keep their position, new keys append). -/

/-- Adjacency map: effective id -> dependency ids. -/
abbrev Graph := List (Int × List Int)

/-- Dict assignment `g[k] = v`: replace in place if the key exists, else
append (CPython dicts preserve first-insertion order). -/
def dictSet (k : Int) (v : List Int) : Graph → Graph
  | [] => [(k, v)]
  | (k0, v0) :: rest => if k0 = k then (k, v) :: rest else (k0, v0) :: dictSet k v rest

/-- Dict iteration order / key view. -/
def dictKeys (g : Graph) : List Int := g.map (·.1)

/-- `graph.get(node, [])`. -/
def dictGetD (g : Graph) (k : Int) : List Int :=
  (((g.find? (fun p => decide (p.1 = k))).map (·.2)).getD [])

/-- The effective ids of all tasks: `task.get('id', i)` over
`enumerate(tasks)` (the key set of the `task_ids` dict). -/
def taskIdsOf (tasks : List STask) : List Int :=
  tasks.enum.map (fun p => p.2.id.getD (p.1 : Int))

/-- Build the adjacency map (lines 166-175): each task's effective id maps
to its dependencies that resolve to a known effective id; dangling
references are dropped. -/
def buildGraph (tasks : List STask) : Graph :=
  let task_ids := taskIdsOf tasks
  tasks.enum.foldl (fun g p =>
    let task_id := p.2.id.getD (p.1 : Int)
    let deps := p.2.dependencies.filter (fun d => decide (d ∈ task_ids))
    dictSet task_id deps g) []

/-- Index of the first occurrence (`path.index(neighbor)`). -/
def listIdxOfInt (l : List Int) (n : Int) : Nat :=
  l.findIdx (fun x => decide (x = n))

/-- The neighbor loop of `dfs` (lines 187-195): unvisited neighbors are
recursed into (via `recur`, the outer `dfs` one fuel level down); a
neighbor on the recursion stack closes a cycle, recorded as
`path[path.index(neighbor):] + [neighbor]`. In the source `rec_stack`
always holds exactly the elements of `path` (both are pushed and popped in
lockstep, and `rec_stack` is empty again whenever a fresh `path` starts at
a root), so the `neighbor in rec_stack` test is membership in `path`.
The returned list is the threaded `visited` set; `path` is per-call state
(the source restores it by `path.pop()` before returning `False`). -/
def dfsNbrs (recur : Int → List Int → List Int → Option (List Int) × List Int) :
    List Int → List Int → List Int → Option (List Int) × List Int
  | [], visited, _ => (none, visited)
  | n :: rest, visited, path =>
    if n ∉ visited then
      match recur n visited path with
      | (some cyc, v2) => (some cyc, v2)
      | (none, v2) => dfsNbrs recur rest v2 path
    else if n ∈ path then
      (some (path.drop (listIdxOfInt path n) ++ [n]), visited)
    else
      dfsNbrs recur rest visited path

/-- `dfs(node, path)` (lines 182-199), with explicit recursion fuel. The
source's recursion always terminates because every call marks a previously
unvisited node; the recursion depth from any root is therefore at most the
number of graph keys, so `detect_circular_dependencies` supplies fuel
`|keys| + 1` and the `0` branch is unreachable. (`Nat.rec` keeps the
function kernel-reducible on concrete inputs.) -/
def dfsVisit (g : Graph) (fuel : Nat) :
    Int → List Int → List Int → Option (List Int) × List Int :=
  Nat.rec (motive := fun _ => Int → List Int → List Int → Option (List Int) × List Int)
    (fun _ visited _ => (none, visited))
    (fun _ ih node visited path =>
      dfsNbrs ih (dictGetD g node) (node :: visited) (path ++ [node]))
    fuel

/-- The root loop of `detect_circular_dependencies` (lines 201-206):
start a DFS with an empty path from every not-yet-visited node, in dict
order; return the recorded cycle on success, `(False, [])` otherwise. -/
def detectLoop (g : Graph) : List Int → List Int → Bool × List Int
  | [], _ => (false, [])
  | n :: rest, visited =>
    if n ∉ visited then
      match dfsVisit g ((dictKeys g).length + 1) n visited [] with
      | (some cyc, _) => (true, cyc)
      | (none, v2) => detectLoop g rest v2
    else detectLoop g rest visited

/-- `detect_circular_dependencies(tasks)`. -/
def detect_circular_dependencies (tasks : List STask) : Bool × List Int :=
  let g := buildGraph tasks
  detectLoop g (dictKeys g) []

/-! ## `analyze_tasks` (lines 437-480) -/

/-- Round half to even at the integer position (Python's `round`). Python
rounds the binary float nearest to the score; over the rationals the exact
value is rounded, which agrees except on ties invisible to every claim. -/
def roundHalfEven (q : Rat) : Int :=
  let f := ⌊q⌋
  let r := q - (f : Rat)
  if r < 1 / 2 then f
  else if 1 / 2 < r then f + 1
  else if f % 2 = 0 then f else f + 1

/-- `round(score, 2)`. -/
def round2 (q : Rat) : Rat := ((roundHalfEven (q * 100) : Int) : Rat) / 100

/-- An element of `analyze_tasks`'s result: `task.copy()` plus
`priority_score` and `explanation` (with `_circular_warning` deleted, so
`base.circularWarning` is always `false` for marked tasks). -/
structure ScoredTask where
  base : STask
  priority_score : Rat
  explanation : String
deriving DecidableEq, Repr

/-- The descending key order of the final sort: `a` may come before `b`
when `b`'s score is at most `a`'s. -/
def scoreGE (a b : ScoredTask) : Prop := b.priority_score ≤ a.priority_score

instance : DecidableRel scoreGE := fun a b => inferInstanceAs (Decidable (_ ≤ _))

instance : IsTotal ScoredTask scoreGE :=
  ⟨fun a b => (le_total b.priority_score a.priority_score).imp id id⟩

instance : IsTrans ScoredTask scoreGE :=
  ⟨fun _ _ _ h1 h2 => le_trans h2 h1⟩

/-- `scored_tasks.sort(key=lambda x: x['priority_score'], reverse=True)`:
Python's sort is stable, and a stable sort is extensionally determined by
its key order plus stability, so the stable insertion sort on the
descending key order computes exactly the source's result. -/
def sortByScoreDesc (l : List ScoredTask) : List ScoredTask :=
  l.insertionSort scoreGE

/-- The cycle-tagging loop of `analyze_tasks` (lines 455-458): iterates the
input list BY POSITION while mutating its elements in place; the default
id is `tasks.index(task)`, the first structurally equal element of the
partially mutated list. Tasks whose effective id is on the detected cycle
get a `_circular_warning` key written INTO THE INPUT RECORD. -/
def markCycle (cycle : List Int) (tasks : List STask) : List STask :=
  (List.range tasks.length).foldl (fun cur i =>
    match cur[i]? with
    | none => cur
    | some t =>
      let tid := match t.id with
        | some j => j
        | none => (listIndexOf cur t : Int)
      if tid ∈ cycle then cur.set i { t with circularWarning := true } else cur) tasks

/-- The scoring loop body of `analyze_tasks` (lines 464-475): score the
task against the (possibly cycle-tagged) list, copy it, attach the rounded
score and the explanation, and on a tagged copy append the warning and
delete the tag. -/
def scoreOne (tasks2 : List STask) (strategy : String) (today : PyDate) (task : STask) : ScoredTask :=
  let sc := score_task task tasks2 strategy today
  if task.circularWarning then
    ⟨{ task with circularWarning := false }, round2 sc.1,
      sc.2 ++ " [WARNING: Part of circular dependency]"⟩
  else ⟨task, round2 sc.1, sc.2⟩

/-- `analyze_tasks(tasks, strategy)`: returns the pair (state of the INPUT
list after the call, returned list). The source mutates input tasks on a
detected cycle, so the first component is not always the input. (`today`
is `date.today()` in the source, a parameter here.) -/
def analyze_tasks (tasks : List STask) (strategy : String) (today : PyDate) :
    List STask × List ScoredTask :=
  if tasks = [] then ([], [])
  else
    let res := detect_circular_dependencies tasks
    let tasks2 := if res.1 then markCycle res.2 tasks else tasks
    let scored := tasks2.map (scoreOne tasks2 strategy today)
    (tasks2, sortByScoreDesc scored)


/-- The cycle-tagged task list `analyze_tasks` scores against (and, by
mutation, the state of the input list after the call). -/
def markedTasks (tasks : List STask) : List STask :=
  let res := detect_circular_dependencies tasks
  if res.1 then markCycle res.2 tasks else tasks

/-- The scored records of `analyze_tasks` before the final sort, in input
order. -/
def scoredInOrder (tasks : List STask) (strategy : String) (today : PyDate) : List ScoredTask :=
  (markedTasks tasks).map (scoreOne (markedTasks tasks) strategy today)

/-! ## The weekend-aware revision of the urgency model

The repository's tests (src/tasks/tests.py) import `is_weekend`,
`is_holiday` and `count_working_days` from `tasks.scoring` and call
`calculate_urgency_score` with a `consider_weekends` keyword, but the
scoring module revision that defines them is not present under src/; the
spec (sections 4.1, 4.2, 9) describes them, so they are modelled from the
spec here. -/

/-- Modelled from the spec: `is_weekend(date)` - true iff the date falls on
the two fixed weekend days (Saturday/Sunday; Python `date.weekday() >= 5`,
with Monday = 0). Missing from src/, only imported by tests. -/
def is_weekend (d : PyDate) : Bool :=
  (d.toDays + 3) % 7 ≥ 5

/-- Modelled from the spec: `is_holiday(date)` - membership in a fixed,
small set of month+day pairs; the tests pin down New Year's Day and
Christmas. Missing from src/, only imported by tests. -/
def is_holiday (d : PyDate) : Bool :=
  (d.month == 1 && d.day == 1) || (d.month == 12 && d.day == 25)

/-- Successor date (the `datetime` day-after, via month lengths). -/
def PyDate.next (dt : PyDate) : PyDate :=
  if dt.day < daysInMonth dt.year dt.month then ⟨dt.year, dt.month, dt.day + 1⟩
  else if dt.month < 12 then ⟨dt.year, dt.month + 1, 1⟩
  else ⟨dt.year + 1, 1, 1⟩

/-- `dt + timedelta(days=n)`. -/
def PyDate.addDays (dt : PyDate) : Nat → PyDate
  | 0 => dt
  | n + 1 => (dt.addDays n).next

/-- Modelled from the spec: `count_working_days(start, end)` - days
strictly within `(start, end]` that are neither weekend nor holiday; zero
when `end <= start`. Missing from src/, only imported by tests. -/
def count_working_days (start finish : PyDate) : Nat :=
  (((List.range (dateDiff finish start).toNat).map (fun k => start.addDays (k + 1))).filter
    (fun d => !(is_weekend d) && !(is_holiday d))).length

/-- Modelled from the spec: the `consider_weekends` revision of
`calculate_urgency_score` (spec section 4.2): bucket selection uses the
working-day difference when the flag is set, the overdue penalty always
uses the signed calendar-day difference, and with the flag unset the
behavior is the calendar-day one. Missing from src/, called by tests. -/
def calculate_urgency_score_w (due_date : Option PyDate) (today : PyDate)
    (consider_weekends : Bool := false) : Rat :=
  match due_date with
  | none => 30
  | some d =>
    let days_diff := dateDiff d today
    let bucket_diff : Int :=
      if consider_weekends then (count_working_days today d : Int) else days_diff
    if days_diff < 0 then min 200 (100 + ((|days_diff| : Int) : Rat) * 2.5)
    else if bucket_diff = 0 then 100
    else if bucket_diff ≤ 1 then 90
    else if bucket_diff ≤ 3 then 75
    else if bucket_diff ≤ 7 then 60
    else if bucket_diff ≤ 14 then 45
    else if bucket_diff ≤ 30 then 30
    else 15

/-! ## Spec-side definitions

Written from the specification's words, to be compared with the embedded
source functions (refinement claims C2, C4, C6). -/

/-- Spec formula (section 4.5): fastest_wins =
`max(10, 100/(hours+1)) + 0.3*urgency + 5*importance`. -/
def spec_fastest_wins (task : STask) (today : PyDate) : Rat :=
  let hours := task.estimated_hours.getD 8
  let importance := task.importance.getD 5
  let urgency := calculate_urgency_score (parse_date task.due_date) today
  max 10 (100 / (hours + 1)) + 0.3 * urgency + 5 * importance

/-- Spec formula (section 4.5): high_impact =
`20*importance + 15*blocked_count + 0.4*urgency`. -/
def spec_high_impact (task : STask) (tasks : List STask) (today : PyDate) : Rat :=
  let importance := task.importance.getD 5
  let urgency := calculate_urgency_score (parse_date task.due_date) today
  let blocked : Rat := (count_blocked_tasks (effTaskId task tasks) tasks : Rat)
  20 * importance + 15 * blocked + 0.4 * urgency

/-- Spec formula (section 4.5): deadline_driven =
`2*urgency + 3*importance + max(0, 20-hours)`. -/
def spec_deadline_driven (task : STask) (today : PyDate) : Rat :=
  let hours := task.estimated_hours.getD 8
  let importance := task.importance.getD 5
  let urgency := calculate_urgency_score (parse_date task.due_date) today
  2 * urgency + 3 * importance + max 0 (20 - hours)

/-- Spec formula (section 4.5): smart_balance = weighted sum of urgency,
`10*importance`, `effort = max(10, 50/(hours+1))`, plus `20*blocked_count`,
with weights (2.5, 1.0, 0.3) when overdue, (1.5, 1.2, 0.5) when due within
3 days, (1.0, 1.0, 0.8) otherwise. -/
def spec_smart_balance (task : STask) (tasks : List STask) (today : PyDate) : Rat :=
  let hours := task.estimated_hours.getD 8
  let importance := task.importance.getD 5
  let due := parse_date task.due_date
  let urgency := calculate_urgency_score due today
  let effort := max 10 (50 / (hours + 1))
  let blocked : Rat := (count_blocked_tasks (effTaskId task tasks) tasks : Rat)
  let wu : Rat := match due with
    | some dd => if dateDiff dd today < 0 then 2.5 else if dateDiff dd today ≤ 3 then 1.5 else 1
    | none => 1
  let wi : Rat := match due with
    | some dd => if dateDiff dd today < 0 then 1 else if dateDiff dd today ≤ 3 then 1.2 else 1
    | none => 1
  let we : Rat := match due with
    | some dd => if dateDiff dd today < 0 then 0.3 else if dateDiff dd today ≤ 3 then 0.5 else 0.8
    | none => 0.8
  urgency * wu + 10 * importance * wi + effort * we + 20 * blocked

/-- Claim C4, failure condition 1: the `title` key is missing. -/
def failsTitle (t : VTask) : Prop := t.title = none

/-- Claim C4, failure condition 2: `importance` is present and not
coercible to an integer in [1, 10]. -/
def failsImportance (t : VTask) : Prop :=
  ∃ v, t.importance = some v ∧ ¬ ∃ i, pyInt v = some i ∧ 1 ≤ i ∧ i ≤ 10

/-- Claim C4, failure condition 3: `estimated_hours` is present and not
coercible to a non-negative real. -/
def failsHours (t : VTask) : Prop :=
  ∃ v, t.estimated_hours = some v ∧ ¬ ∃ q, pyFloat v = some q ∧ 0 ≤ q

/-- Claim C4, failure condition 4: `due_date` is present, non-empty, a
string, and does not parse as YYYY-MM-DD. -/
def failsDate (t : VTask) : Prop :=
  ∃ s, t.due_date = some (.vstr s) ∧ s ≠ "" ∧ strptimeYMD s = none

/-- Claim C4, failure condition 5: `dependencies` is present and not a
sequence. -/
def failsDeps (t : VTask) : Prop :=
  ∃ v, t.dependencies = some v ∧ v.isList = false

/-- An edge of the code's adjacency map. -/
def graphEdge (g : Graph) (a b : Int) : Prop := b ∈ dictGetD g a

/-- Claim C6's dependency relation: task with effective id `a` (its `id`
field, else its 0-based position) lists `b` among its dependencies, and `b`
is an id present in the list. -/
def taskEdge (tasks : List STask) (a b : Int) : Prop :=
  ∃ p ∈ tasks.enum, p.2.id.getD (p.1 : Int) = a ∧ b ∈ p.2.dependencies ∧ b ∈ taskIdsOf tasks

/-- A directed cycle of a relation: a nonempty edge-chain returning to its
start. -/
def RelHasCycle (r : Int → Int → Prop) : Prop :=
  ∃ a l, List.Chain' r (a :: l) ∧ l ≠ [] ∧ (a :: l).getLast? = some a

/-! ## Theorems -/

theorem urgencyOfDiff_bounds (d : Int) : 0 ≤ urgencyOfDiff d ∧ urgencyOfDiff d ≤ 200 := by
  have habs : (0 : Rat) ≤ ((|d| : Int) : Rat) := by positivity
  unfold urgencyOfDiff
  split_ifs with h1 h2 h3 h4 h5 h6 h7
  · exact ⟨le_min (by norm_num) (by nlinarith), min_le_left _ _⟩
  all_goals norm_num

theorem urgencyOfDiff_overdue_ge (d : Int) (h : d < 0) : 100 ≤ urgencyOfDiff d := by
  have habs : (0 : Rat) ≤ ((|d| : Int) : Rat) := by positivity
  unfold urgencyOfDiff
  rw [if_pos h]
  exact le_min (by norm_num) (by nlinarith)

theorem urgencyOfDiff_overdue_mono (d1 d2 : Int) (h1 : d1 < 0) (h2 : d2 < 0)
    (h : |d1| ≤ |d2|) : urgencyOfDiff d1 ≤ urgencyOfDiff d2 := by
  have hle : ((|d1| : Int) : Rat) ≤ ((|d2| : Int) : Rat) := by exact_mod_cast h
  unfold urgencyOfDiff
  rw [if_pos h1, if_pos h2]
  exact min_le_min le_rfl (by nlinarith)

/-- C1: `calculate_urgency_score` returns exactly the spec's piecewise
values - 30 with no due date, the capped overdue penalty
`min(200, 100 + |days_overdue| * 2.5)` below today, 100 on the due day, and
90/75/60/45/30/15 for calendar-day differences of 1, 2-3, 4-7, 8-14, 15-30
and beyond 30; the result always lies in [0, 200], is at least 100 for
overdue dates, and is non-decreasing in the number of days overdue. -/
theorem urgency_score_matches_spec :
    (∀ today : PyDate, calculate_urgency_score none today = 30) ∧
    (∀ d today : PyDate,
      (dateDiff d today < 0 →
        calculate_urgency_score (some d) today
          = min 200 (100 + ((|dateDiff d today| : Int) : Rat) * 2.5)) ∧
      (dateDiff d today = 0 → calculate_urgency_score (some d) today = 100) ∧
      (dateDiff d today = 1 → calculate_urgency_score (some d) today = 90) ∧
      (2 ≤ dateDiff d today → dateDiff d today ≤ 3 →
        calculate_urgency_score (some d) today = 75) ∧
      (4 ≤ dateDiff d today → dateDiff d today ≤ 7 →
        calculate_urgency_score (some d) today = 60) ∧
      (8 ≤ dateDiff d today → dateDiff d today ≤ 14 →
        calculate_urgency_score (some d) today = 45) ∧
      (15 ≤ dateDiff d today → dateDiff d today ≤ 30 →
        calculate_urgency_score (some d) today = 30) ∧
      (30 < dateDiff d today → calculate_urgency_score (some d) today = 15) ∧
      0 ≤ calculate_urgency_score (some d) today ∧
      calculate_urgency_score (some d) today ≤ 200 ∧
      (dateDiff d today < 0 → 100 ≤ calculate_urgency_score (some d) today)) ∧
    (∀ d1 d2 today : PyDate, dateDiff d1 today < 0 → dateDiff d2 today < 0 →
      |dateDiff d1 today| ≤ |dateDiff d2 today| →
      calculate_urgency_score (some d1) today ≤ calculate_urgency_score (some d2) today) := by
  refine ⟨fun _ => rfl, fun d today => ?_, fun d1 d2 today h1 h2 h => ?_⟩
  · refine ⟨fun h => ?_, fun h => ?_, fun h => ?_, fun h h2 => ?_, fun h h2 => ?_,
      fun h h2 => ?_, fun h h2 => ?_, fun h => ?_,
      (urgencyOfDiff_bounds _).1, (urgencyOfDiff_bounds _).2,
      fun h => urgencyOfDiff_overdue_ge _ h⟩ <;>
      simp only [calculate_urgency_score, urgencyOfDiff] <;> split_ifs <;> first | rfl | omega
  · exact urgencyOfDiff_overdue_mono _ _ h1 h2 h

theorem urgency_score_matches_spec_witness :
    calculate_urgency_score (some ⟨2025, 11, 20⟩) ⟨2025, 11, 28⟩
        = min 200 (100 + ((|dateDiff ⟨2025, 11, 20⟩ ⟨2025, 11, 28⟩| : Int) : Rat) * 2.5) ∧
      calculate_urgency_score (some ⟨2025, 11, 20⟩) ⟨2025, 11, 28⟩ = 120 ∧
      calculate_urgency_score (some ⟨2025, 12, 8⟩) ⟨2025, 11, 28⟩ = 45 :=
  ⟨(urgency_score_matches_spec.2.1 ⟨2025, 11, 20⟩ ⟨2025, 11, 28⟩).1 (by decide),
    by
      have hd : dateDiff ⟨2025, 11, 20⟩ ⟨2025, 11, 28⟩ = -8 := by decide
      simp [calculate_urgency_score, hd, urgencyOfDiff, min_def]
      norm_num,
    (urgency_score_matches_spec.2.1 ⟨2025, 12, 8⟩ ⟨2025, 11, 28⟩).2.2.2.2.2.1
      (by decide) (by decide)⟩

/-- C2: with the defaults `estimated_hours = 8` and `importance = 5` for
absent keys, each of the four strategy functions returns exactly the score
of its spec formula - fastest_wins `max(10, 100/(hours+1)) + 0.3*urgency +
5*importance`, high_impact `20*importance + 15*blocked_count +
0.4*urgency`, deadline_driven `2*urgency + 3*importance + max(0,
20-hours)`, and smart_balance the weighted sum with context-dependent
weights (2.5, 1.0, 0.3) / (1.5, 1.2, 0.5) / (1.0, 1.0, 0.8). -/
theorem strategies_match_spec_formulas (task : STask) (tasks : List STask) (today : PyDate) :
    (score_task_fastest_wins task tasks today).1 = spec_fastest_wins task today ∧
    (score_task_high_impact task tasks today).1 = spec_high_impact task tasks today ∧
    (score_task_deadline_driven task tasks today).1 = spec_deadline_driven task today ∧
    (score_task_smart_balance task tasks today).1 = spec_smart_balance task tasks today := by
  refine ⟨?_, ?_, ?_, ?_⟩
  · simp only [score_task_fastest_wins, spec_fastest_wins]; ring
  · simp only [score_task_high_impact, spec_high_impact]; ring
  · simp only [score_task_deadline_driven, spec_deadline_driven]; ring
  · simp only [score_task_smart_balance, spec_smart_balance]
    rcases h : parse_date task.due_date with _ | dd
    · simp only [h]; norm_num; ring
    · simp only [h]
      by_cases h1 : dateDiff dd today < 0
      · simp [h1]; ring
      · by_cases h2 : dateDiff dd today ≤ 3
        · simp [h1, h2]; ring
        · simp [h1, h2]; ring

/-- C5: `score_task` validates first and on failure returns exactly
`(0.0, "Invalid task: " + error)` without raising; when validation
succeeds it dispatches to the named strategy (each of the four recognized
names yields exactly that strategy's result); and for any strategy name
outside the four known ones it behaves identically to `smart_balance` on
the same inputs, never an error. -/
theorem score_task_invalid_and_fallback (task : STask) (tasks : List STask)
    (strategy : String) (today : PyDate) :
    ((validate_task_s task).1 = false →
      score_task task tasks strategy today
        = (0, "Invalid task: " ++ ((validate_task_s task).2.getD ""))) ∧
    (strategy ∉ stratNames →
      score_task task tasks strategy today = score_task task tasks "smart_balance" today) ∧
    ((validate_task_s task).1 = true →
      score_task task tasks "fastest_wins" today = score_task_fastest_wins task tasks today ∧
      score_task task tasks "high_impact" today = score_task_high_impact task tasks today ∧
      score_task task tasks "deadline_driven" today
        = score_task_deadline_driven task tasks today ∧
      score_task task tasks "smart_balance" today
        = score_task_smart_balance task tasks today) := by
  refine ⟨?_, ?_, ?_⟩
  · intro h
    simp [score_task, h]
  · intro h
    by_cases hv : (validate_task_s task).1 = false
    · simp [score_task, hv]
    · have hmem : decide (strategy ∈ stratNames) = false := by simpa using h
      simp [score_task, hv, stratNames] at hmem ⊢
      simp [hmem.1, hmem.2.1, hmem.2.2.1, hmem.2.2.2]
  · intro hv
    refine ⟨?_, ?_, ?_, ?_⟩ <;> simp [score_task, hv, stratNames]

theorem score_task_invalid_and_fallback_witness :
    score_task {} [] "bogus" ⟨2025, 11, 28⟩
        = (0, "Invalid task: " ++ ((validate_task_s {}).2.getD "")) ∧
      score_task { title := some "T" } [] "bogus" ⟨2025, 11, 28⟩
        = score_task { title := some "T" } [] "smart_balance" ⟨2025, 11, 28⟩ ∧
      score_task { title := some "T" } [] "fastest_wins" ⟨2025, 11, 28⟩
        = score_task_fastest_wins { title := some "T" } [] ⟨2025, 11, 28⟩ ∧
      score_task { title := some "T" } [] "high_impact" ⟨2025, 11, 28⟩
        = score_task_high_impact { title := some "T" } [] ⟨2025, 11, 28⟩ ∧
      score_task { title := some "T" } [] "deadline_driven" ⟨2025, 11, 28⟩
        = score_task_deadline_driven { title := some "T" } [] ⟨2025, 11, 28⟩ ∧
      score_task { title := some "T" } [] "smart_balance" ⟨2025, 11, 28⟩
        = score_task_smart_balance { title := some "T" } [] ⟨2025, 11, 28⟩ :=
  ⟨(score_task_invalid_and_fallback {} [] "bogus" ⟨2025, 11, 28⟩).1 (by decide),
    (score_task_invalid_and_fallback { title := some "T" } [] "bogus" ⟨2025, 11, 28⟩).2.1
      (by decide),
    (score_task_invalid_and_fallback { title := some "T" } [] "bogus" ⟨2025, 11, 28⟩).2.2
      (by decide)⟩

/-- C9: `count_blocked_tasks(id, tasks)` is the number of tasks whose
dependencies contain the id; a task referenced by exactly two others
yields 2; and for a fixed task (with its own id) and today, the
high_impact and smart_balance scores are strictly increasing in the
blocked count. -/
theorem count_blocked_matches_and_scores_monotone :
    (∀ (i : Int) (tasks : List STask),
      count_blocked_tasks i tasks
        = (tasks.filter (fun t => decide (i ∈ t.dependencies))).length) ∧
    count_blocked_tasks 1
      [{ id := some 1 }, { id := some 2, dependencies := [1] },
        { id := some 3, dependencies := [1] }] = 2 ∧
    (∀ (task : STask) (i : Int), task.id = some i →
      ∀ (l1 l2 : List STask) (today : PyDate),
        count_blocked_tasks i l2 < count_blocked_tasks i l1 →
        (score_task_high_impact task l2 today).1 < (score_task_high_impact task l1 today).1 ∧
        (score_task_smart_balance task l2 today).1 < (score_task_smart_balance task l1 today).1) := by
  refine ⟨fun i tasks => List.countP_eq_length_filter _ _, by decide, ?_⟩
  intro task i hid l1 l2 today h
  have hcast : ((count_blocked_tasks i l2 : Nat) : Rat) < ((count_blocked_tasks i l1 : Nat) : Rat) := by
    exact_mod_cast h
  constructor
  · simp only [score_task_high_impact, effTaskId, hid]
    nlinarith [hcast]
  · simp only [score_task_smart_balance, effTaskId, hid]
    rcases hp : parse_date task.due_date with _ | dd
    · simp only [hp]; nlinarith [hcast]
    · simp only [hp]
      by_cases h1 : dateDiff dd today < 0
      · simp [h1]; nlinarith [hcast]
      · by_cases h2 : dateDiff dd today ≤ 3
        · simp [h1, h2]; nlinarith [hcast]
        · simp [h1, h2]; nlinarith [hcast]

theorem count_blocked_matches_and_scores_monotone_witness :
    (score_task_high_impact { id := some 1, title := some "T" }
          [{ id := some 2, dependencies := [1] }, { id := some 3, dependencies := [1] }]
          ⟨2025, 11, 28⟩).1
        > (score_task_high_impact { id := some 1, title := some "T" } [] ⟨2025, 11, 28⟩).1 ∧
      (score_task_smart_balance { id := some 1, title := some "T" }
          [{ id := some 2, dependencies := [1] }, { id := some 3, dependencies := [1] }]
          ⟨2025, 11, 28⟩).1
        > (score_task_smart_balance { id := some 1, title := some "T" } [] ⟨2025, 11, 28⟩).1 :=
  (count_blocked_matches_and_scores_monotone.2.2
    { id := some 1, title := some "T" } 1 rfl
    [{ id := some 2, dependencies := [1] }, { id := some 3, dependencies := [1] }]
    [] ⟨2025, 11, 28⟩ (by decide))


theorem validateDeps_eq (t : VTask) :
    (failsDeps t → validateDeps t = (false, some "Dependencies must be a list")) ∧
    (¬ failsDeps t → validateDeps t = (true, none)) := by
  unfold validateDeps failsDeps
  rcases t.dependencies with _ | v
  · exact ⟨(by rintro ⟨w, hw, _⟩; cases hw), fun _ => rfl⟩
  · by_cases hl : v.isList = true
    · refine ⟨?_, fun _ => by simp [hl]⟩
      rintro ⟨w, hw, hwl⟩
      injection hw with hw
      subst hw
      rw [hl] at hwl
      cases hwl
    · refine ⟨fun _ => by simp [hl], fun h => ?_⟩
      exact absurd ⟨v, rfl, by simpa using hl⟩ h

theorem validateDue_eq (t : VTask) :
    (failsDate t → ∃ s, t.due_date = some (.vstr s) ∧
      validateDue t = (false, some ("Invalid date format: " ++ s ++ ". Expected YYYY-MM-DD"))) ∧
    (¬ failsDate t → validateDue t = validateDeps t) := by
  unfold validateDue failsDate
  rcases t.due_date with _ | v
  · exact ⟨(by rintro ⟨s, hs, _⟩; cases hs), fun _ => rfl⟩
  · rcases v with _ | n | q | b | s | l
    case vstr =>
      by_cases hs : s = ""
      · subst hs
        constructor
        · rintro ⟨s2, h2, hne, _⟩
          injection h2 with h2
          injection h2 with h2
          exact absurd h2.symm hne
        · intro _
          simp [PyVal.truthy]
      · by_cases hp : strptimeYMD s = none
        · constructor
          · intro _
            refine ⟨s, rfl, ?_⟩
            simp [PyVal.truthy, hs, hp]
          · intro h
            exact absurd ⟨s, rfl, hs, hp⟩ h
        · constructor
          · rintro ⟨s2, h2, hne2, hp2⟩
            injection h2 with h2
            injection h2 with h2
            subst h2
            exact absurd hp2 hp
          · intro _
            have : (strptimeYMD s).isNone = false := by
              rcases h : strptimeYMD s with _ | d
              · exact absurd h hp
              · rfl
            simp [PyVal.truthy, hs, this]
    all_goals
      refine ⟨(by rintro ⟨s2, h2, _⟩; cases h2), fun _ => ?_⟩
    all_goals
      simp only [PyVal.truthy]
      split <;> rfl

theorem validateHours_eq (t : VTask) :
    (failsHours t → validateHours t = (false, some "Estimated hours must be a number") ∨
      validateHours t = (false, some "Estimated hours must be non-negative")) ∧
    (¬ failsHours t → validateHours t = validateDue t) := by
  unfold validateHours failsHours
  rcases t.estimated_hours with _ | v
  · exact ⟨(by rintro ⟨w, hw, _⟩; cases hw), fun _ => rfl⟩
  · rcases hf : pyFloat v with _ | q
    · constructor
      · intro _
        left
        simp [hf]
      · intro h
        refine absurd ⟨v, rfl, ?_⟩ h
        rintro ⟨q, hq, _⟩
        rw [hf] at hq
        cases hq
    · by_cases hq : q < 0
      · constructor
        · intro _
          right
          simp [hf, hq]
        · intro h
          refine absurd ⟨v, rfl, ?_⟩ h
          rintro ⟨q2, hq2, hq2n⟩
          rw [hf] at hq2
          injection hq2 with e
          subst e
          linarith
      · constructor
        · rintro ⟨w, hw, hnot⟩
          injection hw with e
          subst e
          exact absurd ⟨q, hf, le_of_not_lt hq⟩ hnot
        · intro _
          simp [hf, hq]

theorem validate_task_importance_eq (t : VTask) (s0 : PyVal) (ht : t.title = some s0) :
    (failsImportance t → ∃ m, validate_task t = (false, some m) ∧
      (m = "Importance must be an integer" ∨
        ∃ i : Int, m = "Importance must be between 1 and 10, got " ++ toString i)) ∧
    (¬ failsImportance t → validate_task t = validateHours t) := by
  unfold validate_task failsImportance
  rw [ht]
  rcases t.importance with _ | v
  · exact ⟨(by rintro ⟨w, hw, _⟩; cases hw), fun _ => rfl⟩
  · rcases hi : pyInt v with _ | i
    · constructor
      · intro _
        exact ⟨_, by simp [hi], Or.inl rfl⟩
      · intro h
        refine absurd ⟨v, rfl, ?_⟩ h
        rintro ⟨i, hii, _⟩
        rw [hi] at hii
        cases hii
    · by_cases hr : 1 ≤ i ∧ i ≤ 10
      · constructor
        · rintro ⟨w, hw, hnot⟩
          injection hw with e
          subst e
          exact absurd ⟨i, hi, hr.1, hr.2⟩ hnot
        · intro _
          simp [hi, hr]
      · constructor
        · intro _
          exact ⟨_, by simp [hi, hr], Or.inr ⟨i, rfl⟩⟩
        · intro h
          refine absurd ⟨v, rfl, ?_⟩ h
          rintro ⟨i2, hii2, h1, h2⟩
          rw [hi] at hii2
          injection hii2 with e
          subst e
          exact hr ⟨h1, h2⟩

/-- C4: `validate_task` returns `ok = false` exactly when one of the five
failure conditions holds - missing title; importance present and not
coercible to an integer in [1, 10]; estimated_hours present and not
coercible to a non-negative real; due_date present, non-empty, a string and
unparseable as YYYY-MM-DD; dependencies present and not a sequence - the
checks run in that order, short-circuiting on the first failure, and the
error message of the first failing check names the failing field. -/
theorem validate_task_matches_spec (t : VTask) :
    ((validate_task t).1 = false ↔
      failsTitle t ∨ failsImportance t ∨ failsHours t ∨ failsDate t ∨ failsDeps t) ∧
    (¬ (failsTitle t ∨ failsImportance t ∨ failsHours t ∨ failsDate t ∨ failsDeps t) →
      validate_task t = (true, none)) ∧
    (failsTitle t → validate_task t = (false, some "Missing required field: title")) ∧
    (¬ failsTitle t → failsImportance t → ∃ m, validate_task t = (false, some m) ∧
      (m = "Importance must be an integer" ∨
        ∃ i : Int, m = "Importance must be between 1 and 10, got " ++ toString i)) ∧
    (¬ failsTitle t → ¬ failsImportance t → failsHours t →
      validate_task t = (false, some "Estimated hours must be a number") ∨
        validate_task t = (false, some "Estimated hours must be non-negative")) ∧
    (¬ failsTitle t → ¬ failsImportance t → ¬ failsHours t → failsDate t →
      ∃ s, t.due_date = some (.vstr s) ∧
        validate_task t = (false, some ("Invalid date format: " ++ s ++ ". Expected YYYY-MM-DD"))) ∧
    (¬ failsTitle t → ¬ failsImportance t → ¬ failsHours t → ¬ failsDate t → failsDeps t →
      validate_task t = (false, some "Dependencies must be a list")) := by
  by_cases h1 : failsTitle t
  · have he : validate_task t = (false, some "Missing required field: title") := by
      unfold validate_task
      rw [show t.title = none from h1]
    refine ⟨?_, ?_, fun _ => he, ?_, ?_, ?_, ?_⟩
    · simp [he, h1]
    · intro h
      exact absurd (Or.inl h1) h
    · intro h
      exact absurd h1 h
    · intro h
      exact absurd h1 h
    · intro h
      exact absurd h1 h
    · intro h
      exact absurd h1 h
  · rcases ht : t.title with _ | s0
    · exact absurd ht h1
    have himp := validate_task_importance_eq t s0 ht
    by_cases h2 : failsImportance t
    · obtain ⟨m, hm, hform⟩ := himp.1 h2
      refine ⟨?_, ?_, fun h => absurd h h1, fun _ _ => ⟨m, hm, hform⟩, ?_, ?_, ?_⟩
      · simp [hm, h2]
      · intro h
        exact absurd (Or.inr (Or.inl h2)) h
      · intro _ h
        exact absurd h2 h
      · intro _ h _
        exact absurd h2 h
      · intro _ h _ _
        exact absurd h2 h
    · have e1 : validate_task t = validateHours t := himp.2 h2
      have hhrs := validateHours_eq t
      by_cases h3 : failsHours t
      · have := hhrs.1 h3
        refine ⟨?_, ?_, fun h => absurd h h1, fun _ h => absurd h h2, fun _ _ _ => ?_, ?_, ?_⟩
        · rcases this with hc | hc <;> simp [e1, hc, h3]
        · intro h
          exact absurd (Or.inr (Or.inr (Or.inl h3))) h
        · rw [e1]
          exact this
        · intro _ _ h _
          exact absurd h3 h
        · intro _ _ h _ _
          exact absurd h3 h
      · have e2 : validate_task t = validateDue t := by rw [e1, hhrs.2 h3]
        have hdue := validateDue_eq t
        by_cases h4 : failsDate t
        · obtain ⟨s, hsd, hsv⟩ := hdue.1 h4
          refine ⟨?_, ?_, fun h => absurd h h1, fun _ h => absurd h h2,
            fun _ _ h => absurd h h3, fun _ _ _ _ => ⟨s, hsd, by rw [e2]; exact hsv⟩, ?_⟩
          · simp [e2, hsv, h4]
          · intro h
            exact absurd (Or.inr (Or.inr (Or.inr (Or.inl h4)))) h
          · intro _ _ _ h _
            exact absurd h4 h
        · have e3 : validate_task t = validateDeps t := by rw [e2, hdue.2 h4]
          have hdeps := validateDeps_eq t
          by_cases h5 : failsDeps t
          · have hv := hdeps.1 h5
            refine ⟨?_, ?_, fun h => absurd h h1, fun _ h => absurd h h2,
              fun _ _ h => absurd h h3, fun _ _ _ h => absurd h h4,
              fun _ _ _ _ _ => by rw [e3]; exact hv⟩
            · simp [e3, hv, h5]
            · intro h
              exact absurd (Or.inr (Or.inr (Or.inr (Or.inr h5)))) h
          · have hv : validate_task t = (true, none) := by rw [e3, hdeps.2 h5]
            refine ⟨?_, fun _ => hv, fun h => absurd h h1, fun _ h => absurd h h2,
              fun _ _ h => absurd h h3, fun _ _ _ h => absurd h h4,
              fun _ _ _ _ h => absurd h h5⟩
            simp [hv, h1, h2, h3, h4, h5]

theorem validate_task_matches_spec_witness :
    (validate_task { importance := some (.vint 5) }).1 = false ∧
      validate_task { title := some (.vstr "T"), dependencies := some (.vint 3) }
        = (false, some "Dependencies must be a list") := by
  constructor
  · exact (validate_task_matches_spec { importance := some (.vint 5) }).1.mpr (Or.inl rfl)
  · refine (validate_task_matches_spec
      { title := some (.vstr "T"), dependencies := some (.vint 3) }).2.2.2.2.2.2 ?_ ?_ ?_ ?_ ?_
    · simp [failsTitle]
    · rintro ⟨v, hv, _⟩
      cases hv
    · rintro ⟨v, hv, _⟩
      cases hv
    · rintro ⟨s, hs, _⟩
      cases hs
    · exact ⟨.vint 3, rfl, rfl⟩


theorem parse_date_nonstr (v : PyVal) (h : v.isStr = false) : parse_date (some v) = none := by
  rcases v with _ | n | q | b | s | l <;>
    simp_all [parse_date, PyVal.isStr, PyVal.truthy, ite_self]

theorem parse_date_some_inv (o : Option PyVal) (d : PyDate) (h : parse_date o = some d) :
    ∃ s, o = some (.vstr s) ∧ strptimeYMD s = some d := by
  rcases o with _ | val
  · cases h
  · rcases val with _ | n | q | b | s | l <;>
      simp_all [parse_date, PyVal.truthy, ite_self]

/-- C10 (implicit): a present but non-string `due_date` (a date object, a
number, ...) parses to `None`, so every strategy scores the task exactly as
if it had no due date (urgency 30.0) and `validate_task` accepts it; only
strings that parse as YYYY-MM-DD ever produce a due date. -/
theorem nonstring_due_date_behavior :
    (∀ v : PyVal, v.isStr = false → parse_date (some v) = none) ∧
    (∀ (o : Option PyVal) (d : PyDate), parse_date o = some d →
      ∃ s, o = some (.vstr s) ∧ strptimeYMD s = some d) ∧
    (∀ (task : STask) (tasks : List STask) (today : PyDate) (v : PyVal),
      task.due_date = some v → v.isStr = false →
      calculate_urgency_score (parse_date task.due_date) today = 30 ∧
      (score_task_fastest_wins task tasks today).1
        = (score_task_fastest_wins { task with due_date := none } tasks today).1 ∧
      (score_task_deadline_driven task tasks today).1
        = (score_task_deadline_driven { task with due_date := none } tasks today).1 ∧
      (task.id.isSome →
        (score_task_high_impact task tasks today).1
          = (score_task_high_impact { task with due_date := none } tasks today).1 ∧
        (score_task_smart_balance task tasks today).1
          = (score_task_smart_balance { task with due_date := none } tasks today).1)) ∧
    (∀ t : VTask, (∃ v, t.due_date = some v ∧ v.isStr = false) →
      ¬ failsTitle t → ¬ failsImportance t → ¬ failsHours t → ¬ failsDeps t →
      validate_task t = (true, none)) := by
  refine ⟨parse_date_nonstr, parse_date_some_inv, ?_, ?_⟩
  · intro task tasks today v hdue hstr
    have hp : parse_date task.due_date = none := by
      rw [hdue]
      exact parse_date_nonstr v hstr
    have hp0 : parse_date (none : Option PyVal) = none := rfl
    refine ⟨by rw [hp]; rfl, ?_, ?_, ?_⟩
    · simp [score_task_fastest_wins, hp, hp0]
    · simp [score_task_deadline_driven, hp, hp0]
    · intro hid
      rcases hi : task.id with _ | i
      · rw [hi] at hid
        cases hid
      constructor
      · simp [score_task_high_impact, hp, hp0, effTaskId, hi]
      · simp [score_task_smart_balance, hp, hp0, effTaskId, hi]
  · intro t hv h1 h2 h3 h5
    have h4 : ¬ failsDate t := by
      rintro ⟨s, hs, _, _⟩
      obtain ⟨v, hv2, hvs⟩ := hv
      rw [hs] at hv2
      injection hv2 with e
      rw [← e] at hvs
      simp [PyVal.isStr] at hvs
    rcases ht : t.title with _ | s0
    · exact absurd ht h1
    have e1 := (validate_task_importance_eq t s0 ht).2 h2
    have e2 := (validateHours_eq t).2 h3
    have e3 := (validateDue_eq t).2 h4
    have e4 := (validateDeps_eq t).2 h5
    rw [e1, e2, e3, e4]

theorem nonstring_due_date_behavior_witness :
    parse_date (some (.vint 20251128)) = none ∧
      validate_task { title := some (.vstr "T"), due_date := some (.vint 5) } = (true, none) := by
  constructor
  · exact nonstring_due_date_behavior.1 (.vint 20251128) rfl
  · refine nonstring_due_date_behavior.2.2.2 _ ⟨.vint 5, rfl, rfl⟩ ?_ ?_ ?_ ?_
    · simp [failsTitle]
    · rintro ⟨v, hv, _⟩
      cases hv
    · rintro ⟨v, hv, _⟩
      cases hv
    · rintro ⟨v, hv, _⟩
      cases hv


theorem filter_score_orderedInsert (c : Rat) (x : ScoredTask) (l : List ScoredTask) :
    (l.orderedInsert scoreGE x).filter (fun z => decide (z.priority_score = c))
      = if x.priority_score = c
        then x :: l.filter (fun z => decide (z.priority_score = c))
        else l.filter (fun z => decide (z.priority_score = c)) := by
  induction l with
  | nil =>
    simp only [List.orderedInsert]
    by_cases hx : x.priority_score = c <;> simp [hx]
  | cons b bs ih =>
    rw [List.orderedInsert]
    by_cases hr : scoreGE x b
    · rw [if_pos hr]
      by_cases hx : x.priority_score = c <;> simp [hx, List.filter]
    · rw [if_neg hr]
      have hbx : x.priority_score < b.priority_score := lt_of_not_le hr
      by_cases hx : x.priority_score = c
      · have hb : ¬ b.priority_score = c := by
          rw [← hx]
          exact ne_of_gt hbx
        simp [List.filter, hb, ih, hx]
      · by_cases hb : b.priority_score = c <;> simp [List.filter, hb, ih, hx]

theorem filter_score_insertionSort (c : Rat) (l : List ScoredTask) :
    (l.insertionSort scoreGE).filter (fun z => decide (z.priority_score = c))
      = l.filter (fun z => decide (z.priority_score = c)) := by
  induction l with
  | nil => rfl
  | cons x xs ih =>
    rw [List.insertionSort, filter_score_orderedInsert]
    by_cases hx : x.priority_score = c <;> simp [List.filter, hx, ih]

theorem analyze_tasks_eq (tasks : List STask) (strategy : String) (today : PyDate) :
    analyze_tasks tasks strategy today
      = (if tasks = [] then [] else markedTasks tasks,
          sortByScoreDesc (scoredInOrder tasks strategy today)) := by
  by_cases h : tasks = []
  · subst h
    rfl
  · simp [analyze_tasks, h, markedTasks, scoredInOrder]

/-- C3: `analyze_tasks([])` is empty; on any input the returned sequence is
sorted by `priority_score` descending, is a permutation of the in-order
scored records, preserves the relative input order of elements with equal
`priority_score` (stability), and every element carries `priority_score`
(the strategy's score rounded to 2 decimals) and an `explanation` (the
strategy's, possibly with the cycle warning appended). -/
theorem analyze_tasks_output_spec :
    (∀ (strategy : String) (today : PyDate), (analyze_tasks [] strategy today).2 = []) ∧
    (∀ (tasks : List STask) (strategy : String) (today : PyDate),
      List.Sorted scoreGE (analyze_tasks tasks strategy today).2 ∧
      (analyze_tasks tasks strategy today).2.Perm (scoredInOrder tasks strategy today) ∧
      (∀ c : Rat,
        (analyze_tasks tasks strategy today).2.filter (fun x => decide (x.priority_score = c))
          = (scoredInOrder tasks strategy today).filter (fun x => decide (x.priority_score = c))) ∧
      (∀ x ∈ (analyze_tasks tasks strategy today).2,
        ∃ t ∈ markedTasks tasks,
          x.priority_score
            = round2 (score_task t (markedTasks tasks) strategy today).1 ∧
          (x.explanation = (score_task t (markedTasks tasks) strategy today).2 ∨
            x.explanation
              = (score_task t (markedTasks tasks) strategy today).2
                ++ " [WARNING: Part of circular dependency]"))) := by
  constructor
  · intro strategy today
    rfl
  · intro tasks strategy today
    have h2 : (analyze_tasks tasks strategy today).2
        = sortByScoreDesc (scoredInOrder tasks strategy today) := by
      rw [analyze_tasks_eq]
    refine ⟨?_, ?_, ?_, ?_⟩
    · rw [h2]
      exact List.sorted_insertionSort scoreGE _
    · rw [h2]
      exact List.perm_insertionSort scoreGE _
    · intro c
      rw [h2]
      exact filter_score_insertionSort c _
    · intro x hx
      rw [h2] at hx
      have hx2 : x ∈ scoredInOrder tasks strategy today :=
        (List.perm_insertionSort scoreGE _).mem_iff.mp hx
      obtain ⟨t, ht, hxt⟩ := List.mem_map.mp hx2
      refine ⟨t, ht, ?_⟩
      rw [← hxt]
      unfold scoreOne
      by_cases hw : t.circularWarning <;> simp [hw]


theorem analyze_tasks_output_spec_witness :
    ∃ t ∈ markedTasks [({ id := some 1, title := some "T" } : STask)],
      (⟨{ id := some 1, title := some "T" }, 88, "Smart Balance: Balanced priority"⟩ :
          ScoredTask).priority_score
        = round2 (score_task t (markedTasks [{ id := some 1, title := some "T" }])
            "smart_balance" ⟨2025, 11, 28⟩).1 ∧
      ((⟨{ id := some 1, title := some "T" }, 88, "Smart Balance: Balanced priority"⟩ :
          ScoredTask).explanation
          = (score_task t (markedTasks [{ id := some 1, title := some "T" }])
              "smart_balance" ⟨2025, 11, 28⟩).2 ∨
        (⟨{ id := some 1, title := some "T" }, 88, "Smart Balance: Balanced priority"⟩ :
          ScoredTask).explanation
          = (score_task t (markedTasks [{ id := some 1, title := some "T" }])
              "smart_balance" ⟨2025, 11, 28⟩).2 ++ " [WARNING: Part of circular dependency]") := by
  have hs1 : (score_task { id := some 1, title := some "T" }
      [({ id := some 1, title := some "T" } : STask)] "smart_balance" ⟨2025, 11, 28⟩).1 = 88 := by
    simp [score_task, stratNames, score_task_smart_balance, parse_date, calculate_urgency_score,
      effTaskId, count_blocked_tasks, validate_task_s, validateHoursS, validateDueS]
    norm_num [max_def]
  have hs2 : (score_task { id := some 1, title := some "T" }
      [({ id := some 1, title := some "T" } : STask)] "smart_balance" ⟨2025, 11, 28⟩).2
      = "Smart Balance: Balanced priority" := by
    simp [score_task, stratNames, score_task_smart_balance, parse_date, calculate_urgency_score,
      effTaskId, count_blocked_tasks, validate_task_s, validateHoursS, validateDueS]
    norm_num
  have hone : scoreOne [({ id := some 1, title := some "T" } : STask)] "smart_balance"
      ⟨2025, 11, 28⟩ { id := some 1, title := some "T" }
      = ⟨{ id := some 1, title := some "T" }, 88, "Smart Balance: Balanced priority"⟩ := by
    simp [scoreOne, hs1, hs2]
    norm_num [round2, roundHalfEven]
  have hm : markedTasks [({ id := some 1, title := some "T" } : STask)]
      = [{ id := some 1, title := some "T" }] := by decide
  have hout : (analyze_tasks [({ id := some 1, title := some "T" } : STask)]
      "smart_balance" ⟨2025, 11, 28⟩).2
      = [⟨{ id := some 1, title := some "T" }, 88, "Smart Balance: Balanced priority"⟩] := by
    rw [analyze_tasks_eq]
    simp only [scoredInOrder, hm, List.map, hone]
    simp [sortByScoreDesc, List.insertionSort]
  exact (analyze_tasks_output_spec.2 [{ id := some 1, title := some "T" }] "smart_balance"
      ⟨2025, 11, 28⟩).2.2.2
    ⟨{ id := some 1, title := some "T" }, 88, "Smart Balance: Balanced priority"⟩
    (by rw [hout]; exact List.mem_singleton.mpr rfl)

/-- C7 fails on the code: `analyze_tasks` mutates its input. On a task list
with a dependency cycle it writes a `_circular_warning` key into the input
task records on the cycle (line 458) and only deletes the key from the
output copies (line 473), so after the call the input records have gained a
key; on cycle-free input the input is left unchanged. -/
theorem analyze_tasks_mutates_cyclic_input :
    (analyze_tasks
        [{ id := some 1, title := some "A", dependencies := [2] },
          { id := some 2, title := some "B", dependencies := [1] }]
        "smart_balance" ⟨2025, 11, 28⟩).1
      ≠ [{ id := some 1, title := some "A", dependencies := [2] },
          { id := some 2, title := some "B", dependencies := [1] }] ∧
    (analyze_tasks
        [{ id := some 1, title := some "A", dependencies := [2] },
          { id := some 2, title := some "B", dependencies := [1] }]
        "smart_balance" ⟨2025, 11, 28⟩).1
      = [{ id := some 1, title := some "A", dependencies := [2], circularWarning := true },
          { id := some 2, title := some "B", dependencies := [1], circularWarning := true }] ∧
    (analyze_tasks
        [{ id := some 1, title := some "A", dependencies := [] },
          { id := some 2, title := some "B", dependencies := [1] }]
        "smart_balance" ⟨2025, 11, 28⟩).1
      = [{ id := some 1, title := some "A", dependencies := [] },
          { id := some 2, title := some "B", dependencies := [1] }] := by
  refine ⟨by decide, by decide, by decide⟩

theorem urgency_w_false_eq (due : Option PyDate) (today : PyDate) :
    calculate_urgency_score_w due today false = calculate_urgency_score due today := by
  rcases due with _ | d
  · rfl
  · rfl

/-- C8 (spec-modelled): the weekend-aware `calculate_urgency_score` takes a
`consider_weekends` flag defaulting to false; with the flag set the bucket
is selected from the working-day difference (weekends and holidays
excluded) while the overdue penalty still uses the signed calendar-day
difference, and with the flag unset the result is exactly the calendar-day
behavior of the src revision. -/
theorem urgency_weekend_mode_spec :
    (∀ (due : Option PyDate) (today : PyDate),
      calculate_urgency_score_w due today false = calculate_urgency_score due today) ∧
    (∀ (d today : PyDate), dateDiff d today < 0 →
      calculate_urgency_score_w (some d) today true
        = min 200 (100 + ((|dateDiff d today| : Int) : Rat) * 2.5)) ∧
    (∀ (d today : PyDate), 0 ≤ dateDiff d today →
      calculate_urgency_score_w (some d) today true
        = urgencyOfDiff ((count_working_days today d : Nat) : Int)) := by
  refine ⟨urgency_w_false_eq, ?_, ?_⟩
  · intro d today h
    simp [calculate_urgency_score_w, h]
  · intro d today h
    have hnot : ¬ dateDiff d today < 0 := not_lt.mpr h
    have hw : ¬ ((count_working_days today d : Nat) : Int) < 0 :=
      not_lt.mpr (Int.natCast_nonneg _)
    simp [calculate_urgency_score_w, urgencyOfDiff, hnot, hw]

theorem urgency_weekend_mode_spec_witness :
    calculate_urgency_score_w (some ⟨2025, 11, 20⟩) ⟨2025, 11, 28⟩ true
        = min 200 (100 + ((|dateDiff ⟨2025, 11, 20⟩ ⟨2025, 11, 28⟩| : Int) : Rat) * 2.5) ∧
      calculate_urgency_score_w (some ⟨2025, 12, 1⟩) ⟨2025, 11, 28⟩ true
        = urgencyOfDiff ((count_working_days ⟨2025, 11, 28⟩ ⟨2025, 12, 1⟩ : Nat) : Int) ∧
      calculate_urgency_score_w (some ⟨2025, 12, 1⟩) ⟨2025, 11, 28⟩ true = 90 ∧
      calculate_urgency_score_w (some ⟨2025, 12, 1⟩) ⟨2025, 11, 28⟩ false = 75 :=
  ⟨urgency_weekend_mode_spec.2.1 ⟨2025, 11, 20⟩ ⟨2025, 11, 28⟩ (by decide),
    urgency_weekend_mode_spec.2.2 ⟨2025, 12, 1⟩ ⟨2025, 11, 28⟩ (by decide),
    by decide, by decide⟩


theorem chainInt_drop (g : Graph) (l : List Int) (i : Nat)
    (h : List.Chain' (graphEdge g) l) : List.Chain' (graphEdge g) (l.drop i) := by
  induction i with
  | zero => exact h
  | succ i ih =>
    rw [← List.tail_drop]
    exact ih.tail

theorem drop_idxOf_head (l : List Int) (n : Int) (h : n ∈ l) :
    (l.drop (listIdxOfInt l n)).head? = some n := by
  induction l with
  | nil => cases h
  | cons a as ih =>
    by_cases ha : a = n
    · subst ha
      simp [listIdxOfInt, List.findIdx_cons]
    · have hmem : n ∈ as := by
        rcases List.mem_cons.mp h with h1 | h1
        · exact absurd h1.symm ha
        · exact h1
      have : listIdxOfInt (a :: as) n = listIdxOfInt as n + 1 := by
        simp [listIdxOfInt, List.findIdx_cons, ha]
      rw [this, List.drop_succ_cons]
      exact ih hmem

theorem idxOf_lt_length (l : List Int) (n : Int) (h : n ∈ l) :
    listIdxOfInt l n < l.length := by
  induction l with
  | nil => cases h
  | cons a as ih =>
    by_cases ha : a = n
    · subst ha
      simp [listIdxOfInt, List.findIdx_cons]
    · have hmem : n ∈ as := by
        rcases List.mem_cons.mp h with h1 | h1
        · exact absurd h1.symm ha
        · exact h1
      have : listIdxOfInt (a :: as) n = listIdxOfInt as n + 1 := by
        simp [listIdxOfInt, List.findIdx_cons, ha]
      rw [this]
      simpa using ih hmem

theorem getLast?_drop_of_lt (l : List Int) (i : Nat) (h : i < l.length) :
    (l.drop i).getLast? = l.getLast? := by
  induction l generalizing i with
  | nil => simp at h
  | cons a as ih =>
    cases i with
    | zero => rfl
    | succ i =>
      rw [List.drop_succ_cons]
      have hlt : i < as.length := by simpa using h
      have hne : as ≠ [] := by
        intro he
        rw [he] at hlt
        simp at hlt
      rw [ih i hlt]
      rcases as with _ | ⟨b, bs⟩
      · exact absurd rfl hne
      · rfl


theorem cycle_of_path_loop (g : Graph) (path : List Int) (n : Int)
    (hchain : List.Chain' (graphEdge g) path)
    (hmem : n ∈ path)
    (hlast : ∀ a, path.getLast? = some a → graphEdge g a n) :
    RelHasCycle (graphEdge g) := by
  have hhead : (path.drop (listIdxOfInt path n)).head? = some n := drop_idxOf_head path n hmem
  have hchain2 : List.Chain' (graphEdge g) (path.drop (listIdxOfInt path n)) :=
    chainInt_drop g path _ hchain
  have hlast2 : (path.drop (listIdxOfInt path n)).getLast? = path.getLast? :=
    getLast?_drop_of_lt path _ (idxOf_lt_length path n hmem)
  rcases hseg : path.drop (listIdxOfInt path n) with _ | ⟨b, t⟩
  · rw [hseg] at hhead
    cases hhead
  · rw [hseg] at hhead hchain2 hlast2
    have hb : b = n := by simpa using hhead
    subst hb
    refine ⟨b, t ++ [b], ?_, by simp, ?_⟩
    · have : b :: (t ++ [b]) = (b :: t) ++ [b] := by simp
      rw [this]
      apply List.Chain'.append hchain2 (List.chain'_singleton b)
      intro x hx y hy
      have hy2 : y = b := by
        simp at hy
        exact hy.symm
      subst hy2
      exact hlast x (by rw [← hlast2]; exact hx)
    · have : b :: (t ++ [b]) = (b :: t) ++ [b] := by simp
      rw [this, List.getLast?_concat]

theorem dfsNbrs_sound (g : Graph)
    (recur : Int → List Int → List Int → Option (List Int) × List Int)
    (hrec : ∀ n visited path, path ≠ [] → List.Chain' (graphEdge g) path →
      (∀ a, path.getLast? = some a → graphEdge g a n) →
      (recur n visited path).1.isSome → RelHasCycle (graphEdge g)) :
    ∀ (ns visited path : List Int), path ≠ [] →
      List.Chain' (graphEdge g) path →
      (∀ x ∈ ns, ∀ a, path.getLast? = some a → graphEdge g a x) →
      (dfsNbrs recur ns visited path).1.isSome → RelHasCycle (graphEdge g) := by
  intro ns
  induction ns with
  | nil =>
    intro visited path _ _ _ hs
    simp [dfsNbrs] at hs
  | cons n rest ih =>
    intro visited path hne hchain hns hs
    rw [dfsNbrs] at hs
    by_cases hv : n ∈ visited
    · rw [if_neg (by simpa using hv)] at hs
      by_cases hp : n ∈ path
      · exact cycle_of_path_loop g path n hchain hp
          (fun a ha => hns n (List.mem_cons_self n rest) a ha)
      · rw [if_neg hp] at hs
        exact ih visited path hne hchain (fun x hx => hns x (List.mem_cons_of_mem n hx)) hs
    · rw [if_pos (by simpa using hv)] at hs
      rcases hre : recur n visited path with ⟨oc, v2⟩
      rw [hre] at hs
      rcases oc with _ | cyc
      · exact ih v2 path hne hchain (fun x hx => hns x (List.mem_cons_of_mem n hx)) hs
      · exact hrec n visited path hne hchain
          (fun a ha => hns n (List.mem_cons_self n rest) a ha) (by rw [hre]; rfl)

theorem dfsVisit_sound (g : Graph) :
    ∀ (fuel : Nat) (node : Int) (visited path : List Int),
      List.Chain' (graphEdge g) (path ++ [node]) →
      (dfsVisit g fuel node visited path).1.isSome → RelHasCycle (graphEdge g) := by
  intro fuel
  induction fuel with
  | zero =>
    intro node visited path _ hs
    cases hs
  | succ fuel ih =>
    intro node visited path hchain hs
    refine dfsNbrs_sound g (dfsVisit g fuel) ?_ (dictGetD g node) (node :: visited)
      (path ++ [node]) (by simp) hchain ?_ hs
    · intro n v p hpne hpchain hplast hps
      refine ih n v p ?_ hps
      apply List.Chain'.append hpchain (List.chain'_singleton n)
      intro x hx y hy
      have hy2 : y = n := by
        simp at hy
        exact hy.symm
      subst hy2
      exact hplast x hx
    · intro x hx a ha
      rw [List.getLast?_concat] at ha
      injection ha with e
      subst e
      exact hx

theorem detectLoop_props (g : Graph) :
    ∀ (pending visited : List Int),
      ((detectLoop g pending visited).1 = true → RelHasCycle (graphEdge g)) ∧
      ((detectLoop g pending visited).1 = false → (detectLoop g pending visited).2 = []) := by
  intro pending
  induction pending with
  | nil =>
    intro visited
    exact ⟨(by intro h; cases h), fun _ => rfl⟩
  | cons n rest ih =>
    intro visited
    by_cases hv : n ∈ visited
    · have he : detectLoop g (n :: rest) visited = detectLoop g rest visited := by
        rw [detectLoop, if_neg (by simpa using hv)]
      rw [he]
      exact ih visited
    · rcases hd : dfsVisit g ((dictKeys g).length + 1) n visited [] with ⟨oc, v2⟩
      rcases oc with _ | cyc
      · have he : detectLoop g (n :: rest) visited = detectLoop g rest v2 := by
          rw [detectLoop, if_pos (by simpa using hv), hd]
        rw [he]
        exact ih v2
      · have he : detectLoop g (n :: rest) visited = (true, cyc) := by
          rw [detectLoop, if_pos (by simpa using hv), hd]
        rw [he]
        refine ⟨fun _ => ?_, fun h => by cases h⟩

        exact dfsVisit_sound g _ n visited [] (by simp) (by rw [hd]; rfl)


theorem mem_dictSet (k : Int) (v : List Int) (g : Graph) (kv : Int × List Int)
    (h : kv ∈ dictSet k v g) : kv = (k, v) ∨ kv ∈ g := by
  induction g with
  | nil =>
    simp [dictSet] at h
    exact Or.inl h
  | cons kv0 rest ih =>
    rw [dictSet] at h
    by_cases hk : kv0.1 = k
    · rw [if_pos hk] at h
      rcases List.mem_cons.mp h with h1 | h1
      · exact Or.inl h1
      · exact Or.inr (List.mem_cons_of_mem kv0 h1)
    · rw [if_neg hk] at h
      rcases List.mem_cons.mp h with h1 | h1
      · exact Or.inr (h1 ▸ List.mem_cons_self kv0 rest)
      · rcases ih h1 with h2 | h2
        · exact Or.inl h2
        · exact Or.inr (List.mem_cons_of_mem kv0 h2)

theorem buildGraph_mem (tasks : List STask) (kv : Int × List Int)
    (h : kv ∈ buildGraph tasks) :
    ∃ p ∈ tasks.enum, p.2.id.getD (p.1 : Int) = kv.1 ∧
      kv.2 = p.2.dependencies.filter (fun d => decide (d ∈ taskIdsOf tasks)) := by
  have aux : ∀ (l : List (Nat × STask)) (acc : Graph),
      (∀ p ∈ l, p ∈ tasks.enum) →
      (∀ kv2 ∈ acc, ∃ p ∈ tasks.enum, p.2.id.getD (p.1 : Int) = kv2.1 ∧
        kv2.2 = p.2.dependencies.filter (fun d => decide (d ∈ taskIdsOf tasks))) →
      ∀ kv2 ∈ l.foldl (fun g p =>
          dictSet (p.2.id.getD (p.1 : Int))
            (p.2.dependencies.filter (fun d => decide (d ∈ taskIdsOf tasks))) g) acc,
        ∃ p ∈ tasks.enum, p.2.id.getD (p.1 : Int) = kv2.1 ∧
          kv2.2 = p.2.dependencies.filter (fun d => decide (d ∈ taskIdsOf tasks)) := by
    intro l
    induction l with
    | nil =>
      intro acc _ hacc kv2 h2
      exact hacc kv2 h2
    | cons p rest ih =>
      intro acc hl hacc kv2 h2
      rw [List.foldl_cons] at h2
      refine ih _ (fun q hq => hl q (List.mem_cons_of_mem p hq)) ?_ kv2 h2
      intro kv3 h3
      rcases mem_dictSet _ _ _ _ h3 with h4 | h4
      · exact ⟨p, hl p (List.mem_cons_self p rest), by rw [h4], by rw [h4]⟩
      · exact hacc kv3 h4
  exact aux tasks.enum [] (fun _ hp => hp) (by simp) kv (by simpa [buildGraph] using h)

theorem graphEdge_taskEdge (tasks : List STask) (a b : Int)
    (h : graphEdge (buildGraph tasks) a b) : taskEdge tasks a b := by
  unfold graphEdge dictGetD at h
  rcases hf : (buildGraph tasks).find? (fun p => decide (p.1 = a)) with _ | pr
  · rw [hf] at h
    simp at h
  · rw [hf] at h
    simp at h
    have hpr : pr ∈ buildGraph tasks := List.mem_of_find?_eq_some hf
    have hpa : pr.1 = a := by
      have := List.find?_some hf
      simpa using this
    obtain ⟨p, hp, hid, hdeps⟩ := buildGraph_mem tasks pr hpr
    rw [hdeps] at h
    have h2 := List.mem_filter.mp h
    exact ⟨p, hp, by rw [hid, hpa], h2.1, by simpa using h2.2⟩

theorem relHasCycle_mono {r s : Int → Int → Prop} (hrs : ∀ a b, r a b → s a b)
    (h : RelHasCycle r) : RelHasCycle s := by
  obtain ⟨a, l, hchain, hne, hlast⟩ := h
  exact ⟨a, l, hchain.imp (fun x y => hrs x y), hne, hlast⟩


theorem taskIdsOf_filter_deps (tasks : List STask) :
    taskIdsOf (tasks.map (fun t =>
      { t with dependencies := t.dependencies.filter (fun d => decide (d ∈ taskIdsOf tasks)) }))
      = taskIdsOf tasks := by
  unfold taskIdsOf
  rw [List.enum_map, List.map_map]
  rfl

theorem buildGraph_filter_deps (tasks : List STask) :
    buildGraph (tasks.map (fun t =>
      { t with dependencies := t.dependencies.filter (fun d => decide (d ∈ taskIdsOf tasks)) }))
      = buildGraph tasks := by
  unfold buildGraph
  rw [taskIdsOf_filter_deps, List.enum_map, List.foldl_map]
  apply List.foldl_ext
  intro g p _
  have hfil : ((p.2.dependencies.filter (fun d => decide (d ∈ taskIdsOf tasks))).filter
      (fun d => decide (d ∈ taskIdsOf tasks)))
      = p.2.dependencies.filter (fun d => decide (d ∈ taskIdsOf tasks)) := by
    rw [List.filter_filter]
    apply List.filter_congr
    intro d _
    simp
  exact congrArg (fun deps => dictSet (p.2.id.getD (p.1 : Int)) deps g) hfil

theorem chain_decreasing (r : Int → Int → Prop) (hdec : ∀ x y, r x y → y < x) :
    ∀ (a : Int) (l : List Int), List.Chain' r (a :: l) → ∀ b ∈ l, b < a := by
  intro a l
  induction l generalizing a with
  | nil =>
    intro _ b hb
    cases hb
  | cons c t ih =>
    intro hch b hb
    have h1 : r a c := (List.chain'_cons.mp hch).1
    have h2 : List.Chain' r (c :: t) := (List.chain'_cons.mp hch).2
    rcases List.mem_cons.mp hb with h3 | h3
    · subst h3
      exact hdec a b h1
    · exact lt_trans (ih c h2 b h3) (hdec a c h1)

theorem getLast?_mem_int (l : List Int) (a : Int) (h : l.getLast? = some a) : a ∈ l := by
  induction l with
  | nil => cases h
  | cons b t ih =>
    rcases t with _ | ⟨c, u⟩
    · simp at h
      subst h
      exact List.mem_singleton.mpr rfl
    · have : (b :: c :: u).getLast? = (c :: u).getLast? := rfl
      rw [this] at h
      exact List.mem_cons_of_mem b (ih h)

/-- C6: `detect_circular_dependencies` returns `(false, [])` on every task
list whose dependency relation over effective ids (the `id` field, else the
0-based position) restricted to present ids is acyclic; on the two-task
cycle {1:[2], 2:[1]} it returns `(true, [1, 2, 1])`, a path containing both
ids; it terminates on self-loops (a total function here, e.g. a
self-dependent task yields `(true, [1, 1])`); and dangling references to
absent ids are ignored: pre-filtering every task's dependencies to the
present ids does not change the result. -/
theorem detect_circular_matches_spec :
    (∀ tasks : List STask, ¬ RelHasCycle (taskEdge tasks) →
      detect_circular_dependencies tasks = (false, [])) ∧
    (detect_circular_dependencies
        [{ id := some 1, dependencies := [2] }, { id := some 2, dependencies := [1] }]
        = (true, [1, 2, 1]) ∧
      (1 : Int) ∈ (detect_circular_dependencies
        [{ id := some 1, dependencies := [2] }, { id := some 2, dependencies := [1] }]).2 ∧
      (2 : Int) ∈ (detect_circular_dependencies
        [{ id := some 1, dependencies := [2] }, { id := some 2, dependencies := [1] }]).2) ∧
    detect_circular_dependencies [{ id := some 1, dependencies := [1] }] = (true, [1, 1]) ∧
    (∀ tasks : List STask,
      detect_circular_dependencies (tasks.map (fun t =>
        { t with dependencies := t.dependencies.filter (fun d => decide (d ∈ taskIdsOf tasks)) }))
        = detect_circular_dependencies tasks) := by
  refine ⟨?_, ⟨by decide, by decide, by decide⟩, by decide, ?_⟩
  · intro tasks hac
    have hd : detect_circular_dependencies tasks
        = detectLoop (buildGraph tasks) (dictKeys (buildGraph tasks)) [] := rfl
    have hp := detectLoop_props (buildGraph tasks) (dictKeys (buildGraph tasks)) []
    rcases hres : detectLoop (buildGraph tasks) (dictKeys (buildGraph tasks)) [] with ⟨fst, snd⟩
    rcases fst with _ | _
    · have h2 : snd = [] := by
        have := hp.2
        rw [hres] at this
        exact this rfl
      rw [hd, hres, h2]
    · exfalso
      apply hac
      refine relHasCycle_mono (graphEdge_taskEdge tasks) ?_
      have := hp.1
      rw [hres] at this
      exact this rfl
  · intro tasks
    unfold detect_circular_dependencies
    rw [buildGraph_filter_deps]

theorem detect_circular_matches_spec_witness :
    detect_circular_dependencies
        [{ id := some 3, dependencies := [2] }, { id := some 2, dependencies := [1] },
          { id := some 1, dependencies := [] }]
      = (false, []) := by
  apply detect_circular_matches_spec.1
  rintro ⟨a, l, hch, hne, hlast⟩
  have hdec : ∀ x y : Int,
      taskEdge [{ id := some 3, dependencies := [2] }, { id := some 2, dependencies := [1] },
        { id := some 1, dependencies := [] }] x y → y < x := by
    intro x y h
    obtain ⟨p, hp, hid, hdep, _⟩ := h
    fin_cases hp <;> simp_all <;> omega
  have hmem : a ∈ l := by
    rcases l with _ | ⟨c, u⟩
    · exact absurd rfl hne
    · have : (a :: c :: u).getLast? = (c :: u).getLast? := rfl
      rw [this] at hlast
      exact getLast?_mem_int _ _ hlast
  exact absurd (chain_decreasing _ hdec a l hch a hmem) (lt_irrefl a)

end TaskAnalyzer
